import Mathlib

/-!
Shallow embedding of the bauhaus-dashboard core (src/app.py): the keyword
category classifier and summary of the Camera Sensor page, and the metric
cards / date filtering of the soil-sensor pages.  Labels are modelled as
lists of characters, numeric columns as rationals, timestamps as a pair of
a day number and a time-of-day.
-/

/-- A free-text detection label, modelled as its character list. -/
abbrev Label := List Char

/-- Lower-casing of a label: `str.lower()` applied at app.py line 205. -/
def lowerLabel (s : Label) : Label := s.map Char.toLower

/-- The fixed taxonomy of app.py lines 208-213: the `categories` dict, an
ordered mapping from category name to its keyword list. -/
def categories : List (String × List Label) :=
  [("snail-infested crops",
      ["snail".toList, "snail infestation".toList, "infested".toList,
       "snail-infested".toList]),
   ("stressed crops",
      ["stressed".toList, "wilting".toList, "yellow".toList,
       "dehydrated".toList, "deficient".toList]),
   ("healthy crops",
      ["healthy".toList, "green".toList, "good".toList, "normal".toList]),
   ("dead crops",
      ["dead".toList, "dry".toList, "rotten".toList, "destroyed".toList])]

/-- Whether `k` is a prefix of `o` (helper for substring containment). -/
def prefixMatch : Label → Label → Bool
  | [], _ => true
  | _ :: _, [] => false
  | c :: k, d :: o => c == d && prefixMatch k o

/-- Python substring containment `k in obj`: `k` occurs contiguously
somewhere inside `obj`. -/
def containsSub (k : Label) : Label → Bool
  | [] => k.isEmpty
  | c :: rest => prefixMatch k (c :: rest) || containsSub k rest

/-- One step of the loop body of `categorize` (app.py line 218):
`any(k in obj for k in keywords)`. -/
def catMatches (obj : Label) (ck : String × List Label) : Bool :=
  ck.2.any (fun k => containsSub k obj)

/-- The `categorize` loop of app.py lines 216-220, generalised over the
taxonomy it iterates: the first category whose keyword list has a substring
match wins, otherwise the fallback is returned. -/
def categorizeWith (tax : List (String × List Label)) (obj : Label) : String :=
  match tax.find? (catMatches obj) with
  | some ck => ck.1
  | none => "unclassified"

/-- The `categorize` function of app.py lines 216-220 over the fixed taxonomy. -/
def categorize (obj : Label) : String := categorizeWith categories obj

/-- The classification pipeline applied to one raw label: lower-casing
(line 205) followed by `categorize` (line 222). -/
def classifyLabel (raw : Label) : String := categorize (lowerLabel raw)

/-- The category column: applying `categorize` to every detected_object
entry after the lower-casing of line 205. -/
def classifyAll (labels : List Label) : List String := labels.map classifyLabel

/-- The declared category names in taxonomy order: `categories.keys()`. -/
def declaredNames : List String := categories.map (fun ck => ck.1)

/-- The summary table of app.py lines 225-231:
`value_counts().reindex(categories.keys(), fill_value=0)` emits one row per
declared key, whose value is the number of occurrences of that key in the
category column (0 when the key never occurs). -/
def summaryCounts (labels : List Label) : List (String × Nat) :=
  declaredNames.map (fun k => (k, (classifyAll labels).count k))

/-- The total of app.py line 235 (summing the Count column): the sum of the four
declared-category counts.  The unclassified count was dropped by the
reindex, so it does not contribute. -/
def totalCount (labels : List Label) : Nat :=
  ((summaryCounts labels).map (fun p => p.2)).sum

/-- Round a rational to the nearest integer, ties to even: the rounding
used by numpy/pandas `.round`.  (Floating-point representation error is not
modelled; all rationals here are exact.) -/
def roundHalfEvenInt (q : ℚ) : ℤ :=
  let f : ℤ := ⌊q⌋
  let r : ℚ := q - f
  if r < 1/2 then f
  else if 1/2 < r then f + 1
  else if f % 2 = 0 then f else f + 1

/-- Rounding to two decimal places, ties to even: pandas round with 2. -/
def round2 (q : ℚ) : ℚ := (roundHalfEvenInt (q * 100) : ℚ) / 100

/-- The summary rows with the Percentage column of app.py line 236:
each Count divided by total, times 100, rounded to 2 places if total > 0,
else the scalar 0. -/
def summaryPct (labels : List Label) : List (String × Nat × ℚ) :=
  (summaryCounts labels).map (fun p =>
    (p.1, p.2,
      if 0 < totalCount labels
      then round2 ((p.2 : ℚ) / (totalCount labels : ℚ) * 100)
      else 0))

/-- The sum of the displayed Percentage column. -/
def pctSum (labels : List Label) : ℚ :=
  ((summaryPct labels).map (fun p => p.2.2)).sum

/-- Round-half-even of the fraction `a / b` over naturals, for kernel-level
evaluation; agrees with `roundHalfEvenInt ((a : ℚ) / b)` when `0 < b`. -/
def rheNat (a b : ℕ) : ℕ :=
  let f := a / b
  let r := a % b
  if 2 * r < b then f
  else if b < 2 * r then f + 1
  else if f % 2 = 0 then f else f + 1

/-- The classifier exactly as the spec words it (for the refinement claim):
lower-case the raw label, then test the categories in declared order, a
keyword matching case-insensitively when its lower-casing occurs anywhere
inside the normalized label; first match wins, fallback `"unclassified"`. -/
def classifySpec (raw : Label) : String :=
  match categories.find? (fun ck =>
      ck.2.any (fun k => containsSub (lowerLabel k) (lowerLabel raw))) with
  | some ck => ck.1
  | none => "unclassified"

/-- One timestamped sensor record (spec §3 Reading): the numeric columns of
the sensor CSVs, with the timestamp split into its date (a day number) and
a time-of-day component so that `.dt.date` has a direct model. -/
structure Reading where
  day : Int
  tod : Nat
  raw_adc : ℚ
  vwc_percent : ℚ
  rssi_dbm : ℚ
  distance_m : ℚ
  battery_voltage : ℚ
  soc_percent : ℚ
deriving DecidableEq

/-- Binary maximum on ℚ, written out so the kernel can evaluate it. -/
def qmax (a b : ℚ) : ℚ := if a ≤ b then b else a

/-- Binary minimum on ℚ, written out so the kernel can evaluate it. -/
def qmin (a b : ℚ) : ℚ := if a ≤ b then a else b

/-- The series maximum over a rational column; `none` models NaN on empty. -/
def listMax : List ℚ → Option ℚ
  | [] => none
  | x :: xs => some (xs.foldl qmax x)

/-- The series minimum over a rational column; `none` models NaN on empty. -/
def listMin : List ℚ → Option ℚ
  | [] => none
  | x :: xs => some (xs.foldl qmin x)

/-- Binary minimum on the day numbers. -/
def dmin (a b : Int) : Int := if a ≤ b then a else b

/-- Binary maximum on the day numbers. -/
def dmax (a b : Int) : Int := if a ≤ b then b else a

/-- The minimum of the gateway_timestamp column at day granularity (app.py
line 103); `none` models pandas NaT on an empty column. -/
def tsMinDay : List Reading → Option Int
  | [] => none
  | r :: rs => some ((rs.map (fun x => x.day)).foldl dmin r.day)

/-- The maximum of the gateway_timestamp column at day granularity (app.py
line 103); `none` models pandas NaT on an empty column. -/
def tsMaxDay : List Reading → Option Int
  | [] => none
  | r :: rs => some ((rs.map (fun x => x.day)).foldl dmax r.day)

/-- Taking the date of a possibly-NaT timestamp (app.py line 109): pandas NaT
raises `ValueError` there, modelled as `Except.error`. -/
def dateOfT : Option Int → Except String Int
  | none => Except.error "NaTType does not support date"
  | some d => Except.ok d

/-- The four metric cards of app.py lines 86-100: highest and lowest
raw_adc and vwc_percent of the frame as loaded (the date filter of lines
114-117 runs only after these are computed), guarded by `if not df1.empty`. -/
def sensor1Cards (df : List Reading) : Option (ℚ × ℚ × ℚ × ℚ) :=
  if df.isEmpty then none
  else some ((listMax (df.map (fun r => r.raw_adc))).getD 0,
             (listMin (df.map (fun r => r.raw_adc))).getD 0,
             (listMax (df.map (fun r => r.vwc_percent))).getD 0,
             (listMin (df.map (fun r => r.vwc_percent))).getD 0)

/-- The date-range filter of app.py lines 114-117 (same shape at 36-38):
keep the rows whose timestamp date lies between `s` and `e`, both ends
inclusive; the time-of-day component is discarded by `.dt.date`. -/
def filterByDate (df : List Reading) (s e : Int) : List Reading :=
  df.filter (fun r => decide (s ≤ r.day) && decide (r.day ≤ e))

/-- What the Sensor 1 page hands to the rendering layer. -/
structure Sensor1View where
  cards : Option (ℚ × ℚ × ℚ × ℚ)
  plotRows : List Reading
deriving DecidableEq

/-- The Sensor 1 page pipeline of app.py lines 86-117 for a selected date
range: the metric cards come from the unfiltered frame (lines 86-100),
then the date-input defaults apply `.date()` to the min/max timestamp
(lines 103-112, raising on an empty frame), then the filter of lines
114-117 produces the rows that feed the plot. -/
def sensor1Page (df : List Reading) (s e : Int) : Except String Sensor1View :=
  let cards := sensor1Cards df
  match dateOfT (tsMinDay df), dateOfT (tsMaxDay df) with
  | Except.ok _, Except.ok _ => Except.ok ⟨cards, filterByDate df s e⟩
  | _, _ => Except.error "NaTType does not support date"

/-- Modelled from the spec: the derived three-valued vwc_percent status
(DRY below, WET above, NORMAL at the fixed threshold 80).  No such status
computation exists anywhere in src/app.py; the spec (§4.1, §8) presents it
as part of the Metric Summarizer, so it is modelled here from the words of
the spec. -/
def vwcStatus (avg : ℚ) : String :=
  if avg < 80 then "DRY" else if 80 < avg then "WET" else "NORMAL"

/-- The vwc_percent average of a sequence of readings. -/
def meanVwc (df : List Reading) : ℚ :=
  (df.map (fun r => r.vwc_percent)).sum / (df.length : ℚ)

/-- What the Camera Sensor page shows (app.py lines 203-269): either the
category breakdown (pie chart and table) or the missing-column warning. -/
inductive CameraView where
  | breakdown (rows : List (String × Nat × ℚ)) : CameraView
  | missingColumnWarning : CameraView
deriving DecidableEq

/-- The Camera Sensor page guard of app.py lines 203 and 268-269: the
classification and summary run only when `detected_object` is among the
columns; otherwise `st.warning` is shown and nothing is computed.  Both
outcomes are ordinary values: the process does not abort. -/
def cameraPage (cols : List String) (labels : List Label) : CameraView :=
  if "detected_object" ∈ cols then CameraView.breakdown (summaryPct labels)
  else CameraView.missingColumnWarning

/-- Two taxonomies that agree up to reordering the keywords WITHIN each
category: same category names in the same order, each keyword list a
permutation of its counterpart. -/
def PermWithin (t1 t2 : List (String × List Label)) : Prop :=
  List.Forall₂ (fun a b => a.1 = b.1 ∧ a.2.Perm b.2) t1 t2

/-- The fixed taxonomy with the keywords of one category (stressed crops)
listed in reverse order; used to instantiate the permutation claim. -/
def categoriesShuffled : List (String × List Label) :=
  [("snail-infested crops",
      ["snail".toList, "snail infestation".toList, "infested".toList,
       "snail-infested".toList]),
   ("stressed crops",
      ["deficient".toList, "dehydrated".toList, "yellow".toList,
       "wilting".toList, "stressed".toList]),
   ("healthy crops",
      ["healthy".toList, "green".toList, "good".toList, "normal".toList]),
   ("dead crops",
      ["dead".toList, "dry".toList, "rotten".toList, "destroyed".toList])]

/-- Three detections landing in three distinct declared categories: each
displayed percentage rounds 33.333… down to 33.33. -/
def labelsThirds : List Label :=
  ["Healthy Plant".toList, "SNAIL damage".toList, "wilting leaf".toList]

/-- Six detections with counts 4, 1, 1 over declared categories: the
displayed percentages round 66.666… and 16.666… up to 66.67 and 16.67. -/
def labelsSixths : List Label :=
  ["healthy".toList, "healthy".toList, "healthy".toList, "healthy".toList,
   "snail".toList, "wilting".toList]

/-- A reading on day 0 with raw_adc 5 and vwc_percent 50. -/
def rA : Reading := ⟨0, 5, 5, 50, -70, 2, 3, 90⟩

/-- A reading on day 1 with raw_adc 10 and vwc_percent 60. -/
def rB : Reading := ⟨1, 0, 10, 60, -70, 2, 3, 90⟩

-- scratch checks
example : classifyLabel "Healthy Plant".toList = "healthy crops" := by decide
example : classifyLabel "SNAIL damage".toList = "snail-infested crops" := by decide
example : classifyLabel "wilting leaf".toList = "stressed crops" := by decide
example : classifyLabel "xyz".toList = "unclassified" := by decide
example : classifyLabel "dry snail".toList = "snail-infested crops" := by decide

-- scratch checks on the counts pipeline
example : summaryCounts ["Healthy Plant".toList, "SNAIL damage".toList,
    "wilting leaf".toList, "xyz".toList] =
    [("snail-infested crops", 1), ("stressed crops", 1),
     ("healthy crops", 1), ("dead crops", 0)] := by decide

theorem roundHalfEvenInt_natDiv (a b : ℕ) (hb : 0 < b) :
    roundHalfEvenInt ((a : ℚ) / (b : ℚ)) = (rheNat a b : ℤ) := by
  have hb' : (0 : ℚ) < (b : ℚ) := by exact_mod_cast hb
  have hub : a < (a / b + 1) * b := by
    have h3 := Nat.div_add_mod a b
    have h4 := Nat.mod_lt a hb
    calc a = b * (a / b) + a % b := h3.symm
    _ < b * (a / b) + b := by omega
    _ = (a / b + 1) * b := by ring
  have hfloor : ⌊(a : ℚ) / (b : ℚ)⌋ = ((a / b : ℕ) : ℤ) := by
    rw [Int.floor_eq_iff]
    constructor
    · rw [le_div_iff₀ hb']
      exact_mod_cast Nat.div_mul_le_self a b
    · rw [div_lt_iff₀ hb']
      push_cast
      exact_mod_cast hub
  have h3 : a = b * (a / b) + a % b := (Nat.div_add_mod a b).symm
  have hcast : (a : ℚ) = (b : ℚ) * ((a / b : ℕ) : ℚ) + ((a % b : ℕ) : ℚ) := by
    exact_mod_cast h3
  have key : (a : ℚ) / (b : ℚ) - ((a / b : ℕ) : ℚ) =
      ((a % b : ℕ) : ℚ) / (b : ℚ) := by
    rw [eq_div_iff (ne_of_gt hb'), sub_mul, div_mul_cancel₀ _ (ne_of_gt hb')]
    linear_combination hcast
  have h12 : ((a % b : ℕ) : ℚ) / (b : ℚ) < 1 / 2 ↔ 2 * (a % b) < b := by
    rw [div_lt_div_iff₀ hb' (by norm_num : (0 : ℚ) < 2)]
    constructor
    · intro h
      have h5 : ((2 * (a % b) : ℕ) : ℚ) < ((b : ℕ) : ℚ) := by push_cast; linarith
      exact_mod_cast h5
    · intro h
      have h5 : ((2 * (a % b) : ℕ) : ℚ) < ((b : ℕ) : ℚ) := by exact_mod_cast h
      push_cast at h5
      linarith
  have h21 : (1 / 2 : ℚ) < ((a % b : ℕ) : ℚ) / (b : ℚ) ↔ b < 2 * (a % b) := by
    rw [lt_div_iff₀ hb']
    constructor
    · intro h
      have h5 : ((b : ℕ) : ℚ) < ((2 * (a % b) : ℕ) : ℚ) := by push_cast; linarith
      exact_mod_cast h5
    · intro h
      have h5 : ((b : ℕ) : ℚ) < ((2 * (a % b) : ℕ) : ℚ) := by exact_mod_cast h
      push_cast at h5
      linarith
  have hpar : (((a / b : ℕ) : ℤ) % 2 = 0) ↔ ((a / b) % 2 = 0) := by omega
  simp only [roundHalfEvenInt, rheNat, hfloor, Int.cast_natCast, key, h12, h21, hpar]
  split_ifs <;> push_cast <;> ring

theorem round2_natDiv (n T : ℕ) (hT : 0 < T) :
    round2 ((n : ℚ) / (T : ℚ) * 100) = ((rheNat (n * 10000) T : ℕ) : ℚ) / 100 := by
  have harg : (n : ℚ) / (T : ℚ) * 100 * 100 = ((n * 10000 : ℕ) : ℚ) / (T : ℚ) := by
    push_cast
    field_simp
    ring
  rw [round2, harg, roundHalfEvenInt_natDiv _ _ hT]
  push_cast
  ring_nf

-- scratch checks using the bridge
example : rheNat 10000 3 = 3333 := by decide
example : rheNat (1 * 10000) 6 = 1667 := by decide
example : rheNat (4 * 10000) 6 = 6667 := by decide
example : round2 ((1 : ℚ) / 3 * 100) = 3333 / 100 := by
  rw [(by norm_num : ((1 : ℚ) / 3 * 100) = ((1 : ℕ) : ℚ) / ((3 : ℕ) : ℚ) * 100),
    round2_natDiv 1 3 (by norm_num)]
  norm_num [rheNat]

theorem anyCongr {α : Type} {p q : α → Bool} :
    ∀ {l : List α}, (∀ x ∈ l, p x = q x) → l.any p = l.any q
  | [], _ => rfl
  | x :: xs, h => by
    simp only [List.any_cons]
    rw [h x (List.mem_cons_self x xs), anyCongr (fun y hy => h y (List.mem_cons_of_mem x hy))]

theorem findCongr {α : Type} {p q : α → Bool} :
    ∀ {l : List α}, (∀ x ∈ l, p x = q x) → l.find? p = l.find? q
  | [], _ => rfl
  | x :: xs, h => by
    have hx := h x (List.mem_cons_self x xs)
    cases hpx : p x with
    | true =>
      rw [List.find?_cons_of_pos _ hpx, List.find?_cons_of_pos _ (hx ▸ hpx)]
    | false =>
      rw [List.find?_cons_of_neg _ (by simp [hpx]), List.find?_cons_of_neg _ (by simp [hx ▸ hpx])]
      exact findCongr (fun y hy => h y (List.mem_cons_of_mem x hy))

/-- Every keyword of the fixed taxonomy is already lower-case. -/
theorem keywordsLower : ∀ ck ∈ categories, ∀ k ∈ ck.2, lowerLabel k = k := by
  decide

theorem anyPerm {α : Type} {l1 l2 : List α} (h : l1.Perm l2) (f : α → Bool) :
    l1.any f = l2.any f := by
  cases hb : l1.any f with
  | true =>
    obtain ⟨x, hx, hfx⟩ := List.any_eq_true.mp hb
    exact (List.any_eq_true.mpr ⟨x, h.mem_iff.mp hx, hfx⟩).symm
  | false =>
    have hall := List.any_eq_false.mp hb
    exact (List.any_eq_false.mpr (fun x hx => hall x (h.mem_iff.mpr hx))).symm

theorem countMap {α : Type} (f : α → String) (b : String) :
    ∀ l : List α, (l.map f).count b = l.countP (fun a => f a == b)
  | [] => rfl
  | x :: xs => by
    simp only [List.map_cons, List.count_cons, List.countP_cons,
      countMap f b xs]

/-- C1: for every detection label, the pipeline lower-cases the raw label
and then tests the categories in the fixed declared order, a category
matching when one of its keywords occurs case-insensitively as a substring
of the label (not whole-word); the first matching category is returned and
a label matching none is assigned "unclassified" — i.e. the code agrees
with the spec-worded classifier on every label. -/
theorem classify_C1 (raw : Label) : classifyLabel raw = classifySpec raw := by
  unfold classifyLabel categorize categorizeWith classifySpec
  have h : ∀ ck ∈ categories, catMatches (lowerLabel raw) ck =
      ck.2.any (fun k => containsSub (lowerLabel k) (lowerLabel raw)) := by
    intro ck hck
    unfold catMatches
    exact anyCongr (fun k hk => by rw [keywordsLower ck hck k hk])
  rw [findCongr h]

/-- C2: the summary table has one row per declared category, in declared
taxonomy order, whose Count is the number of detections the classifier
assigned to that category (0 when there are none); "unclassified" never
appears as a row, yet unclassified detections are still counted by the
classification itself. -/
theorem summary_C2 (labels : List Label) :
    ((summaryCounts labels).map (fun p => p.1) =
      ["snail-infested crops", "stressed crops", "healthy crops", "dead crops"])
  ∧ (∀ p ∈ summaryCounts labels,
      p.2 = labels.countP (fun l => classifyLabel l == p.1))
  ∧ "unclassified" ∉ (summaryCounts labels).map (fun p => p.1)
  ∧ (classifyAll labels).count "unclassified" =
      labels.countP (fun l => classifyLabel l == "unclassified") := by
  refine ⟨by simp [summaryCounts, declaredNames, categories], ?_, ?_, ?_⟩
  · intro p hp
    simp only [summaryCounts, List.mem_map] at hp
    obtain ⟨k, _, hk⟩ := hp
    rw [← hk]
    exact countMap classifyLabel k labels
  · simp [summaryCounts, declaredNames, categories]
  · exact countMap classifyLabel "unclassified" labels

/-- The classifier is total over the five categories. -/
theorem classifyLabel_mem (raw : Label) :
    classifyLabel raw ∈ ["snail-infested crops", "stressed crops",
      "healthy crops", "dead crops", "unclassified"] := by
  unfold classifyLabel categorize categorizeWith
  cases hf : categories.find? (catMatches (lowerLabel raw)) with
  | none => simp
  | some ck =>
    have hmem := List.mem_of_find?_eq_some hf
    fin_cases hmem <;> simp

/-- C4: summing the five category counts (the four declared categories plus
unclassified) over the classified detections gives back the number of input
detections. -/
theorem partition_C4 (labels : List Label) :
    (classifyAll labels).count "snail-infested crops"
      + (classifyAll labels).count "stressed crops"
      + (classifyAll labels).count "healthy crops"
      + (classifyAll labels).count "dead crops"
      + (classifyAll labels).count "unclassified" = labels.length := by
  induction labels with
  | nil => rfl
  | cons x xs ih =>
    simp only [classifyAll, List.map_cons, List.count_cons, List.length_cons] at ih ⊢
    have hmem := classifyLabel_mem x
    simp only [List.mem_cons, List.not_mem_nil, or_false] at hmem
    rcases hmem with h | h | h | h | h <;> rw [h] <;> simp <;> omega

/-- The integer rounding is within a half of its argument. -/
theorem rhe_err (x : ℚ) : |(roundHalfEvenInt x : ℚ) - x| ≤ 1/2 := by
  have h0 : (0 : ℚ) ≤ x - ⌊x⌋ := by linarith [Int.floor_le x]
  have h1 : x - ⌊x⌋ < 1 := by linarith [Int.lt_floor_add_one x]
  simp only [roundHalfEvenInt]
  split_ifs with ha hb hc <;>
    · push_cast
      rw [abs_le]
      constructor <;> linarith

/-- Rounding to two decimals is within 1/200 of its argument. -/
theorem round2_err (q : ℚ) : |round2 q - q| ≤ 1/200 := by
  have h := rhe_err (q * 100)
  have hrw : round2 q - q = ((roundHalfEvenInt (q * 100) : ℚ) - q * 100) / 100 := by
    rw [round2]; ring
  rw [hrw, abs_div, abs_of_pos (by norm_num : (0 : ℚ) < 100)]
  linarith

/-- Four rounded shares of a common positive total stay within 1/50 of 100. -/
theorem four_round2_close (a1 a2 a3 a4 T : ℕ) (hT : 0 < T)
    (hsum : a1 + a2 + a3 + a4 = T) :
    |round2 ((a1 : ℚ) / (T : ℚ) * 100) + round2 ((a2 : ℚ) / (T : ℚ) * 100)
      + round2 ((a3 : ℚ) / (T : ℚ) * 100) + round2 ((a4 : ℚ) / (T : ℚ) * 100)
      - 100| ≤ 1/50 := by
  have hT' : (0 : ℚ) < (T : ℚ) := by exact_mod_cast hT
  set x1 : ℚ := (a1 : ℚ) / (T : ℚ) * 100 with hx1
  set x2 : ℚ := (a2 : ℚ) / (T : ℚ) * 100 with hx2
  set x3 : ℚ := (a3 : ℚ) / (T : ℚ) * 100 with hx3
  set x4 : ℚ := (a4 : ℚ) / (T : ℚ) * 100 with hx4
  have hc : (a1 : ℚ) + a2 + a3 + a4 = (T : ℚ) := by exact_mod_cast hsum
  have hx : x1 + x2 + x3 + x4 = 100 := by
    rw [hx1, hx2, hx3, hx4]
    field_simp
    linear_combination 100 * hc
  have h1 := round2_err x1
  have h2 := round2_err x2
  have h3 := round2_err x3
  have h4 := round2_err x4
  have key : round2 x1 + round2 x2 + round2 x3 + round2 x4 - 100
      = (round2 x1 - x1) + (round2 x2 - x2) + (round2 x3 - x3)
        + (round2 x4 - x4) := by linear_combination hx
  rw [key]
  have t1 := abs_add ((round2 x1 - x1) + (round2 x2 - x2) + (round2 x3 - x3))
    (round2 x4 - x4)
  have t2 := abs_add ((round2 x1 - x1) + (round2 x2 - x2)) (round2 x3 - x3)
  have t3 := abs_add (round2 x1 - x1) (round2 x2 - x2)
  linarith

/-- The Percentage column written through the ℕ-level rounding, for
kernel-side evaluation of concrete inputs. -/
theorem summaryPct_entry (labels : List Label) (h : 0 < totalCount labels) :
    summaryPct labels = (summaryCounts labels).map (fun p =>
      (p.1, p.2, ((rheNat (p.2 * 10000) (totalCount labels) : ℕ) : ℚ) / 100)) := by
  unfold summaryPct
  refine List.map_congr_left (fun p _ => ?_)
  rw [if_pos h, round2_natDiv p.2 (totalCount labels) h]

theorem pctSum_thirds : pctSum labelsThirds = 9999 / 100 := by
  have hc : summaryCounts labelsThirds =
      [("snail-infested crops", 1), ("stressed crops", 1),
       ("healthy crops", 1), ("dead crops", 0)] := by decide
  have ht : totalCount labelsThirds = 3 := by decide
  rw [pctSum, summaryPct_entry labelsThirds (by rw [ht]; norm_num), hc, ht]
  have e1 : rheNat (1 * 10000) 3 = 3333 := by decide
  have e0 : rheNat 0 3 = 0 := by decide
  simp [e1, e0]
  norm_num

theorem pctSum_sixths : pctSum labelsSixths = 10001 / 100 := by
  have hc : summaryCounts labelsSixths =
      [("snail-infested crops", 1), ("stressed crops", 1),
       ("healthy crops", 4), ("dead crops", 0)] := by decide
  have ht : totalCount labelsSixths = 6 := by decide
  rw [pctSum, summaryPct_entry labelsSixths (by rw [ht]; norm_num), hc, ht]
  have e1 : rheNat (1 * 10000) 6 = 1667 := by decide
  have e4 : rheNat (4 * 10000) 6 = 6667 := by decide
  have e0 : rheNat 0 6 = 0 := by decide
  simp [e1, e4, e0]
  norm_num

/-- C3 counterexample: with three detections in three distinct declared
categories (unclassified count 0, positive total) the displayed
percentages sum to 99.99, not 100; and with declared counts 1, 1, 4 the
rounded percentages sum to 100.01, exceeding 100.  The claimed percentage
invariant is false on the code. -/
theorem pct_C3_counterexample :
    (pctSum labelsThirds ≠ 100
      ∧ (classifyAll labelsThirds).count "unclassified" = 0
      ∧ 0 < totalCount labelsThirds)
  ∧ 100 < pctSum labelsSixths := by
  refine ⟨⟨?_, by decide, by decide⟩, ?_⟩
  · rw [pctSum_thirds]; norm_num
  · rw [pctSum_sixths]; norm_num

/-- C3 amended: each declared category percentage is
round-half-even(count / total * 100, 2 decimals) with total the sum of the
four DECLARED counts (excluding unclassified); when that total is 0 every
percentage is 0; when it is positive the displayed percentages sum to
within 0.02 of 100 — rounding can leave the sum slightly below or above
100 even when nothing is unclassified. -/
theorem pct_C3_amended (labels : List Label) :
    (totalCount labels = 0 → ∀ p ∈ summaryPct labels, p.2.2 = 0)
  ∧ (0 < totalCount labels → |pctSum labels - 100| ≤ 1/50) := by
  constructor
  · intro h p hp
    simp only [summaryPct, List.mem_map] at hp
    obtain ⟨q, _, hq⟩ := hp
    rw [← hq]
    simp [h]
  · intro hT
    have hshape : pctSum labels =
        round2 (((classifyAll labels).count "snail-infested crops" : ℚ)
            / (totalCount labels : ℚ) * 100)
        + round2 (((classifyAll labels).count "stressed crops" : ℚ)
            / (totalCount labels : ℚ) * 100)
        + round2 (((classifyAll labels).count "healthy crops" : ℚ)
            / (totalCount labels : ℚ) * 100)
        + round2 (((classifyAll labels).count "dead crops" : ℚ)
            / (totalCount labels : ℚ) * 100) := by
      simp [pctSum, summaryPct, summaryCounts, declaredNames, categories,
        if_pos hT]
      ring
    have hsum : (classifyAll labels).count "snail-infested crops"
        + (classifyAll labels).count "stressed crops"
        + (classifyAll labels).count "healthy crops"
        + (classifyAll labels).count "dead crops" = totalCount labels := by
      simp [totalCount, summaryCounts, declaredNames, categories]
      ring
    rw [hshape]
    exact four_round2_close _ _ _ _ _ hT hsum

/-- C3 amended, witnessed at concrete inputs: at the empty detection list
the total is 0 and every percentage is 0; at `labelsThirds` the total is
positive and the percentage sum lands within 0.02 of 100. -/
theorem pct_C3_amended_witness :
    (∀ p ∈ summaryPct [], p.2.2 = 0)
  ∧ |pctSum labelsThirds - 100| ≤ 1/50 :=
  ⟨(pct_C3_amended []).1 (by decide),
   (pct_C3_amended labelsThirds).2 (by decide)⟩

theorem foldl_sel_spec (r : ℚ → ℚ → Prop)
    (hrefl : ∀ a, r a a) (htrans : ∀ a b c, r a b → r b c → r a c)
    (op : ℚ → ℚ → ℚ)
    (h1 : ∀ a b, r a (op a b)) (h2 : ∀ a b, r b (op a b))
    (hc : ∀ a b, op a b = a ∨ op a b = b) (xs : List ℚ) :
    ∀ a : ℚ, r a (xs.foldl op a)
      ∧ (∀ x ∈ xs, r x (xs.foldl op a))
      ∧ (xs.foldl op a = a ∨ xs.foldl op a ∈ xs) := by
  induction xs with
  | nil =>
    intro a
    exact ⟨hrefl a, by simp, Or.inl rfl⟩
  | cons x xs ih =>
    intro a
    obtain ⟨ih1, ih2, ih3⟩ := ih (op a x)
    simp only [List.foldl_cons]
    refine ⟨htrans _ _ _ (h1 a x) ih1, ?_, ?_⟩
    · intro y hy
      rcases List.mem_cons.mp hy with h | h
      · subst h
        exact htrans _ _ _ (h2 a y) ih1
      · exact ih2 y h
    · rcases ih3 with h | h
      · rcases hc a x with h4 | h4
        · exact Or.inl (h.trans h4)
        · exact Or.inr (by rw [h, h4]; exact List.mem_cons_self x xs)
      · exact Or.inr (List.mem_cons_of_mem x h)

theorem qmax_cases (a b : ℚ) : qmax a b = a ∨ qmax a b = b := by
  unfold qmax
  split_ifs <;> [exact Or.inr rfl; exact Or.inl rfl]

theorem qmin_cases (a b : ℚ) : qmin a b = a ∨ qmin a b = b := by
  unfold qmin
  split_ifs <;> [exact Or.inl rfl; exact Or.inr rfl]

theorem listMax_spec (xs : List ℚ) (h : xs ≠ []) :
    ∃ m, listMax xs = some m ∧ (∀ x ∈ xs, x ≤ m) ∧ m ∈ xs := by
  cases xs with
  | nil => exact absurd rfl h
  | cons x ys =>
    obtain ⟨h1, h2, h3⟩ := foldl_sel_spec (fun a b => a ≤ b) le_refl
      (fun a b c => le_trans) qmax
      (fun a b => by unfold qmax; split_ifs with hab <;> [exact hab; exact le_refl a])
      (fun a b => by unfold qmax; split_ifs with hab <;>
        [exact le_refl b; exact le_of_lt (lt_of_not_le hab)])
      qmax_cases ys x
    refine ⟨ys.foldl qmax x, rfl, ?_, ?_⟩
    · intro y hy
      rcases List.mem_cons.mp hy with h4 | h4
      · subst h4; exact h1
      · exact h2 y h4
    · rcases h3 with h4 | h4
      · rw [h4]; exact List.mem_cons_self x ys
      · exact List.mem_cons_of_mem x h4

theorem listMin_spec (xs : List ℚ) (h : xs ≠ []) :
    ∃ m, listMin xs = some m ∧ (∀ x ∈ xs, m ≤ x) ∧ m ∈ xs := by
  cases xs with
  | nil => exact absurd rfl h
  | cons x ys =>
    obtain ⟨h1, h2, h3⟩ := foldl_sel_spec (fun a b => b ≤ a) le_refl
      (fun a b c hab hbc => le_trans hbc hab) qmin
      (fun a b => by unfold qmin; split_ifs with hab <;>
        [exact le_refl a; exact le_of_lt (lt_of_not_le hab)])
      (fun a b => by unfold qmin; split_ifs with hab <;>
        [exact hab; exact le_refl b])
      qmin_cases ys x
    refine ⟨ys.foldl qmin x, rfl, ?_, ?_⟩
    · intro y hy
      rcases List.mem_cons.mp hy with h4 | h4
      · subst h4; exact h1
      · exact h2 y h4
    · rcases h3 with h4 | h4
      · rw [h4]; exact List.mem_cons_self x ys
      · exact List.mem_cons_of_mem x h4

/-- C5 counterexample: with a day-0 reading (raw_adc 5) and a day-1 reading
(raw_adc 10) and the selected range covering only day 1, the page reports
its lowest-raw_adc card as 5 although the minimum over the date-filtered
rows is 10: the cards are computed over the UNfiltered sequence, so the
summarizer does not return the aggregates of the filtered sequence (and no
mean is computed at all). -/
theorem sensor1_C5_counterexample :
    sensor1Page [rA, rB] 1 1 =
      Except.ok ⟨some (10, 5, 60, 50), [rB]⟩
  ∧ listMin ([rB].map (fun r => r.raw_adc)) = some 10
  ∧ ((5 : ℚ) ≠ 10) := by
  refine ⟨by rfl, by rfl, by norm_num⟩

/-- C5 amended: for every nonempty reading sequence and date range, the
Sensor 1 page returns metric cards holding the max and min of raw_adc and
vwc_percent over the FULL (unfiltered) sequence — each bound attained by
some input row — together with the date-filtered rows, which feed only the
plot; no mean is computed. -/
theorem sensor1_C5_amended (df : List Reading) (s e : Int) (h : df ≠ []) :
    ∃ hi lo hv lv,
      sensor1Page df s e =
        Except.ok ⟨some (hi, lo, hv, lv), filterByDate df s e⟩
      ∧ (∀ r ∈ df, r.raw_adc ≤ hi) ∧ (∃ r ∈ df, r.raw_adc = hi)
      ∧ (∀ r ∈ df, lo ≤ r.raw_adc) ∧ (∃ r ∈ df, r.raw_adc = lo)
      ∧ (∀ r ∈ df, r.vwc_percent ≤ hv) ∧ (∃ r ∈ df, r.vwc_percent = hv)
      ∧ (∀ r ∈ df, lv ≤ r.vwc_percent) ∧ (∃ r ∈ df, r.vwc_percent = lv) := by
  cases df with
  | nil => exact absurd rfl h
  | cons r0 rs =>
    obtain ⟨hi, hieq, hiub, himem⟩ :=
      listMax_spec ((r0 :: rs).map (fun r => r.raw_adc)) (by simp)
    obtain ⟨lo, loeq, lolb, lomem⟩ :=
      listMin_spec ((r0 :: rs).map (fun r => r.raw_adc)) (by simp)
    obtain ⟨hv, hveq, hvub, hvmem⟩ :=
      listMax_spec ((r0 :: rs).map (fun r => r.vwc_percent)) (by simp)
    obtain ⟨lv, lveq, lvlb, lvmem⟩ :=
      listMin_spec ((r0 :: rs).map (fun r => r.vwc_percent)) (by simp)
    refine ⟨hi, lo, hv, lv, ?_, ?_, ?_, ?_, ?_, ?_, ?_, ?_, ?_⟩
    · have hcards : sensor1Cards (r0 :: rs) = some (hi, lo, hv, lv) := by
        unfold sensor1Cards
        rw [if_neg (by simp), hieq, loeq, hveq, lveq]
        rfl
      simp only [sensor1Page, tsMinDay, tsMaxDay, dateOfT, hcards]
    · exact fun r hr => hiub _ (List.mem_map_of_mem _ hr)
    · obtain ⟨r, hr, hr2⟩ := List.mem_map.mp himem
      exact ⟨r, hr, hr2⟩
    · exact fun r hr => lolb _ (List.mem_map_of_mem _ hr)
    · obtain ⟨r, hr, hr2⟩ := List.mem_map.mp lomem
      exact ⟨r, hr, hr2⟩
    · exact fun r hr => hvub _ (List.mem_map_of_mem _ hr)
    · obtain ⟨r, hr, hr2⟩ := List.mem_map.mp hvmem
      exact ⟨r, hr, hr2⟩
    · exact fun r hr => lvlb _ (List.mem_map_of_mem _ hr)
    · obtain ⟨r, hr, hr2⟩ := List.mem_map.mp lvmem
      exact ⟨r, hr, hr2⟩

/-- C5 amended, witnessed at the concrete two-reading input. -/
theorem sensor1_C5_amended_witness :
    ∃ hi lo hv lv,
      sensor1Page [rA, rB] 0 1 =
        Except.ok ⟨some (hi, lo, hv, lv), filterByDate [rA, rB] 0 1⟩
      ∧ (∀ r ∈ [rA, rB], r.raw_adc ≤ hi) ∧ (∃ r ∈ [rA, rB], r.raw_adc = hi)
      ∧ (∀ r ∈ [rA, rB], lo ≤ r.raw_adc) ∧ (∃ r ∈ [rA, rB], r.raw_adc = lo)
      ∧ (∀ r ∈ [rA, rB], r.vwc_percent ≤ hv)
      ∧ (∃ r ∈ [rA, rB], r.vwc_percent = hv)
      ∧ (∀ r ∈ [rA, rB], lv ≤ r.vwc_percent)
      ∧ (∃ r ∈ [rA, rB], r.vwc_percent = lv) :=
  sensor1_C5_amended [rA, rB] 0 1 (by simp)

/-- C6: the claim says an empty reading sequence must not raise and must
yield an explicit no-data result; the code guards the cards but then
computes the date-input defaults, where `.date()` on the NaT min/max of an
empty timestamp column raises ValueError — so the page errors on empty
input instead of returning a no-data view. -/
theorem sensor1_C6_empty_raises :
    sensor1Page [] 0 0 = Except.error "NaTType does not support date" := rfl

/-- C7: the three-valued status derived from the vwc_percent average is
DRY strictly below 80, WET strictly above 80, and NORMAL at exactly 80. -/
theorem vwc_C7_status (df : List Reading) :
    (meanVwc df < 80 → vwcStatus (meanVwc df) = "DRY")
  ∧ (80 < meanVwc df → vwcStatus (meanVwc df) = "WET")
  ∧ (meanVwc df = 80 → vwcStatus (meanVwc df) = "NORMAL") := by
  refine ⟨fun h => ?_, fun h => ?_, fun h => ?_⟩
  · simp [vwcStatus, h]
  · simp [vwcStatus, h, asymm h]
  · simp [vwcStatus, h]

/-- C7 witnessed at a one-reading input whose vwc_percent average is 50. -/
theorem vwc_C7_status_witness : vwcStatus (meanVwc [rA]) = "DRY" :=
  (vwc_C7_status [rA]).1 (by norm_num [meanVwc, rA])

/-- C8: the date filter keeps exactly the rows whose timestamp date lies
within the selected range, both bounds inclusive, comparing at day
granularity (the time-of-day field plays no part); the output never has
more rows than the input. -/
theorem filter_C8_range (df : List Reading) (s e : Int) :
    (∀ r ∈ filterByDate df s e, s ≤ r.day ∧ r.day ≤ e)
  ∧ (filterByDate df s e).length ≤ df.length
  ∧ (∀ r ∈ df, s ≤ r.day → r.day ≤ e → r ∈ filterByDate df s e) := by
  refine ⟨?_, List.length_filter_le _ _, ?_⟩
  · intro r hr
    have h2 := (List.mem_filter.mp hr).2
    simp only [Bool.and_eq_true, decide_eq_true_eq] at h2
    exact h2
  · intro r hr h1 h2
    exact List.mem_filter.mpr ⟨hr, by simp [h1, h2]⟩

/-- C8 witnessed: the reading on the boundary day 1 is kept by the
inclusive range from day 1 to day 1. -/
theorem filter_C8_range_witness : rB ∈ filterByDate [rA, rB] 1 1 :=
  (filter_C8_range [rA, rB] 1 1).2.2 rB (by simp) (by decide) (by decide)

/-- C9: when the camera table lacks the detected_object column, the page
performs no classification or summary computation and yields the
missing-column warning view — an ordinary value, so the condition is
recoverable rather than fatal. -/
theorem camera_C9_missing_column (cols : List String) (labels : List Label)
    (h : "detected_object" ∉ cols) :
    cameraPage cols labels = CameraView.missingColumnWarning := by
  simp [cameraPage, h]

/-- C9 witnessed at a concrete schema lacking the required column. -/
theorem camera_C9_missing_column_witness :
    cameraPage ["timestamp", "image_id"] ["snail".toList] =
      CameraView.missingColumnWarning :=
  camera_C9_missing_column ["timestamp", "image_id"] ["snail".toList]
    (by decide)

/-- C10: permuting the keywords WITHIN any categories of a taxonomy (same
category names, same category order) never changes the category the
classifier returns: only the order of the categories matters, never the
order of keywords inside one list. -/
theorem categorize_C10_keyword_perm (t1 t2 : List (String × List Label))
    (h : PermWithin t1 t2) (obj : Label) :
    categorizeWith t1 obj = categorizeWith t2 obj := by
  induction h with
  | nil => rfl
  | @cons a b t1' t2' hab htail ih =>
    obtain ⟨hname, hperm⟩ := hab
    have hm : catMatches obj a = catMatches obj b := anyPerm hperm _
    unfold categorizeWith
    cases hma : catMatches obj a with
    | true =>
      rw [List.find?_cons_of_pos _ hma, List.find?_cons_of_pos _ (hm ▸ hma)]
      exact hname
    | false =>
      rw [List.find?_cons_of_neg _ (by simp [hma]),
        List.find?_cons_of_neg _ (by simp [hm ▸ hma])]
      exact ih

/-- C10 witnessed: reversing the stressed-crops keyword list leaves the
classification of a concrete label unchanged. -/
theorem categorize_C10_keyword_perm_witness :
    categorizeWith categories "wilting plant".toList =
      categorizeWith categoriesShuffled "wilting plant".toList :=
  categorize_C10_keyword_perm categories categoriesShuffled
    (by
      unfold PermWithin categories categoriesShuffled
      refine List.Forall₂.cons ⟨rfl, by decide⟩ ?_
      refine List.Forall₂.cons ⟨rfl, by decide⟩ ?_
      refine List.Forall₂.cons ⟨rfl, by decide⟩ ?_
      exact List.Forall₂.cons ⟨rfl, by decide⟩ List.Forall₂.nil)
    "wilting plant".toList
